import Mathlib

/-!
Shallow embedding of the core of `main.py` from the telegram-boc-bot
repository: the amount/percent parsers, the two rate sources, the
single-slot rate cache, and the fee-conversation handler, together with
theorems settling the frozen specification claims C1 to C10.

Conventions of the embedding:
- Python `Decimal` and `float` values are modelled as `ℚ`.  Numeric string
  literals are modelled for the sign / digits / decimal-point fragment of
  the Python grammar (exponents, underscores and the special tokens for
  infinities are outside the domain of every claim and are treated as
  parse failures).
- Python `None` becomes `Option.none`; functions that catch exceptions
  and return `None` are modelled as total functions into `Option`.
- Timestamps are integers counting seconds (the code only ever subtracts
  two timestamps and compares the difference against a TTL constant).
- Strings are processed as `List Char`, with the Python `str.strip`,
  `str.replace` and `re` operations written out explicitly.
-/

/-! ## Numeric helpers: `Decimal.quantize(..., ROUND_HALF_UP)` -/

/-- Round a rational to an integer, half away from zero: the behaviour of
`ROUND_HALF_UP` in Python `decimal`. -/
def rhu (x : ℚ) : ℤ :=
  if 0 ≤ x then ⌊x + 1/2⌋ else -⌊-x + 1/2⌋

/-- `d.quantize(Decimal("0.0001"), rounding=ROUND_HALF_UP)`: round half-up
at four fractional digits, the fixed digit count used throughout
`main.py` (`_fmt_money` and the conversion arithmetic). -/
def quantize4 (x : ℚ) : ℚ :=
  (rhu (x * 10000) : ℚ) / 10000

/-! ## Character and string helpers -/

/-- ASCII decimal digit (the character class the relevant `re` patterns
and numeric literals use). -/
def isDig (c : Char) : Bool :=
  48 ≤ c.toNat && c.toNat ≤ 57

/-- Whitespace characters removed by Python `str.strip()`. -/
def isWsChar (c : Char) : Bool :=
  c = ' ' || c = '\t' || c = '\n' || c = '\r' || c = '\x0b' || c = '\x0c'

/-- Python `str.strip()` on a character list. -/
def pyStrip (l : List Char) : List Char :=
  ((l.dropWhile isWsChar).reverse.dropWhile isWsChar).reverse

/-- Value of a digit string read in base ten. -/
def digitsVal (l : List Char) : ℕ :=
  l.foldl (fun a c => 10 * a + (c.toNat - 48)) 0

/-- Parse an unsigned numeric literal `digits [. digits]` (either part may
be empty but not both) to its exact rational value.  This is the fragment
of the `Decimal` / `float` literal grammar exercised by the program. -/
def parseUnsigned (cs : List Char) : Option ℚ :=
  let ip := cs.takeWhile isDig
  let r1 := cs.dropWhile isDig
  match r1 with
  | [] => if ip.isEmpty then none else some (digitsVal ip : ℚ)
  | c :: fp =>
    if c = '.' then
      if fp.all isDig && !(ip.isEmpty && fp.isEmpty) then
        some ((digitsVal ip : ℚ) + (digitsVal fp : ℚ) / (10 : ℚ) ^ fp.length)
      else none
    else none

/-- Parse a signed numeric literal, as `Decimal(text)` / `float(text)` do
on the modelled fragment. -/
def parseNumLitL (cs : List Char) : Option ℚ :=
  match cs with
  | [] => parseUnsigned []
  | c :: rest =>
    if c = '-' then (parseUnsigned rest).map (fun q => -q)
    else if c = '+' then parseUnsigned rest
    else parseUnsigned (c :: rest)

/-- Does `hay` start with `needle`? -/
def listStarts : List Char → List Char → Bool
  | [], _ => true
  | _ :: _, [] => false
  | a :: as, b :: bs => a = b && listStarts as bs

/-- Does `needle` occur as a contiguous run inside `hay`? -/
def listHasSub (needle : List Char) : List Char → Bool
  | [] => needle.isEmpty
  | c :: rest => listStarts needle (c :: rest) || listHasSub needle rest

/-- Substring test: Python `needle in hay`. -/
def strContains (hay needle : String) : Bool :=
  listHasSub needle.toList hay.toList

/-- Python `str.upper()` (ASCII case mapping; the only letters the code
compares after upcasing are `USD`). -/
def strUpper (s : String) : String :=
  String.mk (s.toList.map Char.toUpper)

/-! ## `_clean_number` (main.py lines 49-55) -/

/-- `_clean_number`: strip the text, drop thousands separators, parse as a
number; `None` on failure. -/
def clean_number (s : String) : Option ℚ :=
  parseNumLitL (pyStrip ((s.toList).filter (fun c => c ≠ ',')))

/-! ## `_parse_amount_to_decimal` (main.py lines 84-96) -/

/-- `_parse_amount_to_decimal`: plain decimal literal, commas removed,
must land in `(0, 1e9]`. -/
def parse_amount_to_decimal (text : String) : Option ℚ :=
  let t := pyStrip ((text.toList).filter (fun c => c ≠ ','))
  if t.isEmpty then none
  else
    match parseNumLitL t with
    | none => none
    | some val =>
      if val ≤ 0 then none
      else if (1000000000 : ℚ) < val then none
      else some val

/-! ## `_parse_amount_chinese` (main.py lines 99-145) -/

/-- Magnitude glyphs accepted by the Chinese-unit amount parser. -/
def isUnit (c : Char) : Bool :=
  c = '亿' || c = '万' || c = '千' || c = '百' || c = '十'

/-- Characters kept by `re.sub(r"[^0-9\.\,亿万千百十]", "", text)`. -/
def isAllowedChar (c : Char) : Bool :=
  isDig c || c = '.' || c = ',' || isUnit c

/-- `re.fullmatch(r"\d+(?:\.\d+)?", s)`: a non-empty digit run optionally
followed by a point and a non-empty digit run. -/
def isPureNum (cs : List Char) : Bool :=
  let ip := cs.takeWhile isDig
  let r := cs.dropWhile isDig
  !ip.isEmpty &&
    (match r with
     | [] => true
     | c :: fp => c = '.' && !fp.isEmpty && fp.all isDig)

/-- One left-to-right pass of `re.findall(r"(\d+(?:\.\d+)?)([亿万千百十]?)", s)`:
at a digit, greedily take the digit run, an optional fractional part, and
an optional single magnitude glyph; at any other character, advance by
one.  Fuel-driven so that the function is structurally recursive; the
initial fuel `cs.length` bounds the number of scanning steps. -/
def scanSegsF : ℕ → List Char → List (List Char × Option Char)
  | 0, _ => []
  | _, [] => []
  | fuel + 1, c :: cs =>
    if isDig c then
      let ds := (c :: cs).takeWhile isDig
      let r1 := (c :: cs).dropWhile isDig
      let step :=
        match r1 with
        | [] => (ds, r1)
        | c0 :: t =>
          if c0 = '.' then
            let fs := t.takeWhile isDig
            if fs.isEmpty then (ds, r1) else (ds ++ '.' :: fs, t.dropWhile isDig)
          else (ds, r1)
      match step.2 with
      | [] => [(step.1, none)]
      | u :: t2 =>
        if isUnit u then (step.1, some u) :: scanSegsF fuel t2
        else (step.1, none) :: scanSegsF fuel (u :: t2)
    else scanSegsF fuel cs

/-- The segment list the findall pattern produces on `cs`. -/
def scanSegs (cs : List Char) : List (List Char × Option Char) :=
  scanSegsF cs.length cs

/-- `unit_map.get(unit, Decimal("1"))` (main.py lines 127-128). -/
def unitVal : Option Char → ℚ
  | none => 1
  | some c =>
    if c = '亿' then 100000000
    else if c = '万' then 10000
    else if c = '千' then 1000
    else if c = '百' then 100
    else if c = '十' then 10
    else 1

/-- The summation loop over findall segments: each `(num_str, unit)` pair
contributes `Decimal(num_str) * unit_map[unit]`; a failed numeral parse
models the `except` branch and aborts the whole sum. -/
def segsValue : List (List Char × Option Char) → Option ℚ
  | [] => some 0
  | (numChars, u) :: rest =>
    match parseUnsigned numChars with
    | none => none
    | some n =>
      match segsValue rest with
      | none => none
      | some acc => some (n * unitVal u + acc)

/-- `_parse_amount_chinese`: clean the text to the allowed alphabet, try a
pure-number fast path, otherwise sum the magnitude segments, bound-check,
and round half-up at four fractional digits. -/
def parse_amount_chinese (text : String) : Option ℚ :=
  if text = "" then none
  else
    let cleaned := (text.toList).filter isAllowedChar
    if cleaned.isEmpty then none
    else
      let pure := cleaned.filter (fun c => c ≠ ',')
      if isPureNum pure then
        match parseUnsigned pure with
        | none => none
        | some val =>
          if 0 < val ∧ val ≤ (1000000000 : ℚ) then some val else none
      else
        let parts := scanSegs cleaned
        if parts.isEmpty then none
        else
          match segsValue parts with
          | none => none
          | some total =>
            if total ≤ 0 ∨ (1000000000 : ℚ) < total then none
            else some (quantize4 total)

/-! ## `_parse_amount_any` (main.py lines 147-152) -/

/-- `_parse_amount_any`: plain decimal first, Chinese units second. -/
def parse_amount_any (text : String) : Option ℚ :=
  match parse_amount_to_decimal text with
  | some v => some v
  | none => parse_amount_chinese text

/-! ## `_parse_percent_to_decimal` (main.py lines 154-162) -/

/-- `_parse_percent_to_decimal` on an already-extracted character list:
drop percent signs, strip, parse, require `0 ≤ val ≤ 100`. -/
def parse_percent_list (t0 : List Char) : Option ℚ :=
  let t := pyStrip (t0.filter (fun c => c ≠ '%'))
  match parseNumLitL t with
  | none => none
  | some val =>
    if val < 0 ∨ (100 : ℚ) < val then none else some val

/-! ## Upstream value model for `bocfx` responses -/

mutual
/-- The shapes a `bocfx` response can take: Python `None`, a non-finite
float, a finite number, a string, an ordered sequence (list or tuple), or
a mapping (modelled by its values in iteration order).  Sequences and
mappings are built from an auxiliary list type so that all recursion over
values is structural. -/
inductive Val : Type where
  | vnull : Val
  | nonfinite : Val
  | num : ℚ → Val
  | str : String → Val
  | seq : ValList → Val
  | map : ValList → Val
inductive ValList : Type where
  | nil : ValList
  | cons : Val → ValList → ValList
end

mutual
/-- `_first_number_deep` (main.py lines 57-76): depth-first extraction of
the first convertible number; non-finite numbers and unparseable strings
are skipped. -/
def firstNumberDeep : Val → Option ℚ
  | .vnull => none
  | .nonfinite => none
  | .num q => some q
  | .str s => clean_number s
  | .seq xs => firstNumberList xs
  | .map xs => firstNumberList xs
def firstNumberList : ValList → Option ℚ
  | .nil => none
  | .cons x t =>
    match firstNumberDeep x with
    | some v => some v
    | none => firstNumberList t
end

/-! ## Rate triples and the two sources -/

/-- The `(per_usd, pub_time, raw_100)` triple both fetchers and the cache
getter return; a `none` first component is the failure signal, exactly as
`per_usd is None` is in the code. -/
abbrev RateTriple := Option ℚ × Option String × Option ℚ

/-- The all-`None` triple returned on failure. -/
def rnone : RateTriple := (none, none, none)

/-- One attempt of the `bocfx` loop (main.py lines 236-245): `none` as
input models the call raising (any `BaseException` is swallowed and the
attempt is skipped); otherwise the first number is extracted from the
returned structure. -/
def tryAttempt : Option Val → Option ℚ
  | none => none
  | some v => firstNumberDeep v

/-- `fetch_bocfx_usd_se_ask` (main.py lines 231-246): three fixed attempt
shapes, modelled by the three upstream responses they elicit; the first
attempt yielding a finite number wins and is returned as
`(raw/100, None, raw)`. -/
def fetch_bocfx_usd_se_ask (r1 r2 r3 : Option Val) : RateTriple :=
  match tryAttempt r1 with
  | some v => (some (v / 100), none, some v)
  | none =>
    match tryAttempt r2 with
    | some v => (some (v / 100), none, some v)
    | none =>
      match tryAttempt r3 with
      | some v => (some (v / 100), none, some v)
      | none => rnone

/-- Row scan of `fetch_boc_official_usd_se_ask_httpx` (main.py lines
210-225): a table is the list of its rows, each row the list of its cell
texts.  The first row whose leading cell names the US dollar and whose
ask cell cleans to a number produces the quote `(ask/100, pub, ask)`. -/
def scanRows (colAsk : ℕ) (colTime : Option ℕ) :
    List (List String) → Option (ℚ × Option String × ℚ)
  | [] => none
  | tds :: rest =>
    if tds.isEmpty then scanRows colAsk colTime rest
    else
      let ccName := tds.headD ""
      if ccName ≠ "" && (strContains ccName "美元" || strContains (strUpper ccName) "USD") then
        let askText := if colAsk < tds.length then tds.getD colAsk "" else ""
        match clean_number askText with
        | none => scanRows colAsk colTime rest
        | some askRaw =>
          let raw100 := askRaw
          let perUsd := raw100 / 100
          let pubTime :=
            match colTime with
            | some i =>
              if i < tds.length then
                (if tds.getD i "" = "" then none else some (tds.getD i ""))
              else none
            | none => none
          some (perUsd, pubTime, raw100)
      else scanRows colAsk colTime rest

/-- Table scan of `fetch_boc_official_usd_se_ask_httpx` (main.py lines
190-226): per table, read the header row, locate the first column whose
label mentions the cash-sell rate and optionally the first publish-time
column, then scan the body rows. -/
def scanTables : List (List (List String)) → Option (ℚ × Option String × ℚ)
  | [] => none
  | table :: rest =>
    match table with
    | [] => scanTables rest
    | headerRow :: bodyRows =>
      if headerRow.isEmpty then scanTables rest
      else
        let colAsk := headerRow.findIdx? (fun name => strContains name "现汇卖出")
        let colTime := headerRow.findIdx?
          (fun name => strContains name "发布时间" || strContains name "发布日期" || strContains name "Pub")
        match colAsk with
        | none => scanTables rest
        | some ca =>
          match scanRows ca colTime bodyRows with
          | some r => some r
          | none => scanTables rest

/-- `fetch_boc_official_usd_se_ask_httpx` from the parsed-table level
down (the HTTP fetch and HTML parsing feed in `tables`); any failure
yields the all-`None` triple, as the enclosing `try` does. -/
def fetch_boc_official_usd_se_ask (tables : List (List (List String))) : RateTriple :=
  match scanTables tables with
  | some (p, pt, r) => (some p, pt, some r)
  | none => rnone

/-! ## The rate cache (`_rate_cache`, `get_usd_per_usd_with_cache`) -/

/-- `RATE_TTL` (main.py line 40), in seconds. -/
def RATE_TTL : ℤ := 120

/-- `PENDING_TTL` (main.py line 41), in seconds. -/
def PENDING_TTL : ℤ := 120

/-- The `_rate_cache` dictionary (main.py line 43). -/
structure RateCache where
  per_usd : Option ℚ
  pub_time : Option String
  cached_at : Option ℤ
  raw_100 : Option ℚ
deriving DecidableEq

/-- Python truthiness of the cached `Decimal | None` slot: `None` and
zero are falsy. -/
def truthy : Option ℚ → Bool
  | none => false
  | some v => decide (v ≠ 0)

/-- The freshness test on lines 251-252: the cached value and timestamp
are truthy and the slot is younger than `RATE_TTL`. -/
def freshGuard (c : RateCache) (now : ℤ) : Bool :=
  truthy c.per_usd && c.cached_at.isSome && decide (now - c.cached_at.getD 0 < RATE_TTL)

/-- Which upstream sources the refresh path invokes, in order. -/
inductive Src : Type where
  | B
  | A
deriving DecidableEq

/-- The fallback chain of lines 255-257 with its call trace: the scrape
source `B` is always called; the `bocfx` source `A` is called exactly
when `B` came back with `per_usd is None`. -/
def aggregateTrace (b a : RateTriple) : RateTriple × List Src :=
  if b.1.isSome then (b, [Src.B]) else (a, [Src.B, Src.A])

/-- The aggregated result alone. -/
def aggregate (b a : RateTriple) : RateTriple :=
  (aggregateTrace b a).1

/-- The store of lines 259-262. -/
def storeCache (now : ℤ) (res : RateTriple) : RateCache :=
  { per_usd := res.1, pub_time := res.2.1, cached_at := some now, raw_100 := res.2.2 }

/-- `get_usd_per_usd_with_cache` (main.py lines 248-266) as a function of
the current time and of the triples the two fetchers would return on this
refresh: fresh slots are served as-is; otherwise the fallback chain runs,
a non-`None` result is stored with the current timestamp, and the fetched
triple — successful or not — is returned. -/
def get_usd_per_usd_with_cache (c : RateCache) (now : ℤ) (bResp aResp : RateTriple) :
    RateCache × RateTriple :=
  if freshGuard c now then (c, (c.per_usd, c.pub_time, c.raw_100))
  else
    let res := aggregate bResp aResp
    if res.1.isSome then (storeCache now res, res) else (c, res)

/-! ## `_fmt_money` (main.py lines 78-82) -/

/-- Insert a thousands separator after every third digit, working over
the reversed digit list. -/
def group3 : List Char → List Char
  | [] => []
  | [a] => [a]
  | [a, b] => [a, b]
  | [a, b, c] => [a, b, c]
  | a :: b :: c :: d :: rest => a :: b :: c :: ',' :: group3 (d :: rest)

/-- `_fmt_money`: quantize half-up at four fractional digits and render
with thousands separators and exactly four fractional digits, the Python
`f"{v:,.4f}"` format. -/
def fmt_money (d : ℚ) : String :=
  let scaled : ℤ := rhu (d * 10000)
  let sign := if scaled < 0 then "-" else ""
  let n := scaled.natAbs
  let ipStr := String.mk ((group3 (toString (n / 10000)).toList.reverse).reverse)
  let fpDigits := toString (n % 10000)
  let fpStr := String.mk (List.replicate (4 - fpDigits.length) '0' ++ fpDigits.toList)
  sign ++ ipStr ++ "." ++ fpStr

/-! ## The conversion arithmetic (main.py lines 385-394) -/

/-- The six derived quantities of one conversion, in source order. -/
structure Conv where
  cny_no_fee : ℚ
  fee_cny : ℚ
  fee_usd : ℚ
  total_cny : ℚ
  total_usd : ℚ
  total_rate : ℚ
deriving DecidableEq

/-- The computation block of `handle_text` lines 385-394: every quantity
quantized half-up at four fractional digits as it is produced. -/
def convNumbers (usd per_usd fee_pct : ℚ) : Conv :=
  let cny_no_fee := quantize4 (usd * per_usd)
  let fee_frac := fee_pct / 100
  let fee_cny := quantize4 (cny_no_fee * fee_frac)
  let fee_usd := quantize4 (fee_cny / per_usd)
  let total_cny := quantize4 (cny_no_fee + fee_cny)
  let total_usd := quantize4 (usd + fee_usd)
  let total_rate := quantize4 (total_cny / usd)
  { cny_no_fee := cny_no_fee, fee_cny := fee_cny, fee_usd := fee_usd,
    total_cny := total_cny, total_usd := total_usd, total_rate := total_rate }

/-! ## The fee conversation (`pending_fee`, `last_fee_mem`, `handle_text`) -/

/-- One `pending_fee` entry (main.py line 45): the amount, the creation
time, and the snapshot of the remembered fee taken when the conversion
began. -/
structure Pending where
  amount_usd : ℚ
  created_at : ℤ
  last_fee : Option ℚ
deriving DecidableEq

/-- The per-conversation slice of the two module-level dictionaries:
`pending_fee.get(chat_id)` and `last_fee_mem.get(chat_id)`.  `handle_text`
reads and writes only the entries of the chat the update belongs to, so
one conversation's state suffices for its behaviour. -/
structure ChatState where
  pending : Option Pending
  last_fee_mem : Option ℚ
deriving DecidableEq

/-- The outbound messages `handle_text` and `cmd_rate_core` can emit,
one constructor per `reply_text` call site, carrying the data interpolated
into the text. -/
inductive Msg : Type where
  | rateReport : ℚ → Option String → Option ℚ → Msg
  | rateUnavailable : Msg
  | timeoutNotice : Msg
  | cancelNotice : Msg
  | repromptPercent : Msg
  | resultA : ℚ → ℚ → ℚ → Option String → Msg
  | resultB : ℚ → Conv → Option String → Msg
deriving DecidableEq

/-- Is the message one of the two conversion-result messages? -/
def isResultMsg : Msg → Bool
  | .resultA _ _ _ _ => true
  | .resultB _ _ _ => true
  | _ => false

/-- `cmd_rate_core` (main.py lines 269-281) given the triple the cache
getter returns: an unavailability notice on `None`, otherwise the quote
report. -/
def cmdRateCore (fetch : RateTriple) : List Msg :=
  match fetch with
  | (none, _, _) => [Msg.rateUnavailable]
  | (some p, pt, r) => [Msg.rateReport p pt r]

/-- `handle_text` (main.py lines 339-415) as a function of the triple the
rate lookup would produce, the current time, the message text, and the
conversation state.  Returns the updated state and the emitted messages:
the rate alias short-circuits; with no pending entry the text is ignored;
an expired entry yields a timeout notice; a cancel token drops the entry;
an affirmative token reuses the snapshotted fee; otherwise the text is
parsed as a percentage (re-prompting on failure), the fee is memorised,
the entry consumed, and the conversion computed unless the lookup
failed. -/
def handle_text (fetch : RateTriple) (now : ℤ) (text : String) (st : ChatState) :
    ChatState × List Msg :=
  let t := pyStrip text.toList
  if t = "汇率".toList ∨ t = "/汇率".toList then (st, cmdRateCore fetch)
  else
    match st.pending with
    | none => (st, [])
    | some state =>
      if PENDING_TTL < now - state.created_at then
        ({ st with pending := none }, [Msg.timeoutNotice])
      else if t = "取消".toList ∨ t = "cancel".toList ∨ t = "Cancel".toList then
        ({ st with pending := none }, [Msg.cancelNotice])
      else
        let isYes := t = "是".toList ∨ t = "Yes".toList ∨ t = "yes".toList ∨
          t = "Y".toList ∨ t = "y".toList
        let feeStep : Option (ℚ × ChatState) :=
          if isYes ∧ state.last_fee.isSome then
            some (state.last_fee.getD 0, st)
          else
            match parse_percent_list t with
            | none => none
            | some f => some (f, { st with last_fee_mem := some f })
        match feeStep with
        | none => (st, [Msg.repromptPercent])
        | some (fee_pct, st1) =>
          let st2 : ChatState := { st1 with pending := none }
          match fetch with
          | (none, _, _) => (st2, [Msg.rateUnavailable])
          | (some per_usd, pub_time, _raw) =>
            let conv := convNumbers state.amount_usd per_usd fee_pct
            (st2, [Msg.resultA state.amount_usd conv.total_cny per_usd pub_time,
                   Msg.resultB state.amount_usd conv pub_time])

/-! ## Interleaving model of concurrent cache refreshes

`get_usd_per_usd_with_cache` is an async coroutine whose only suspension
point is the awaited scrape in `fetch_boc_official_usd_se_ask_httpx`; the
`bocfx` fallback is a synchronous call.  Under the single-threaded event
loop each caller therefore executes two atomic blocks: the entry block
(freshness check, then either return the cached triple or start the
scrape fetch) and the completion block (scrape response arrives; on
failure the synchronous fallback runs inline; a non-`None` result is
stored).  Two concurrent callers are modelled as two tasks interleaved by
a scheduler; the upstream responses of the episode are fixed parameters,
and all steps happen within one TTL window at time `now`. -/

/-- Where a caller task stands: not yet entered, scrape fetch in flight,
or finished with its result. -/
inductive TaskPc : Type where
  | ready
  | inB
  | done : RateTriple → TaskPc
deriving DecidableEq

/-- A caller task: its position plus how many fetches it has issued to
the scrape upstream (`bCount`) and to the `bocfx` upstream (`aCount`). -/
structure TaskSt where
  pc : TaskPc
  bCount : ℕ
  aCount : ℕ
deriving DecidableEq

/-- The shared cache plus the two caller tasks. -/
structure Sys where
  cache : RateCache
  t1 : TaskSt
  t2 : TaskSt
deriving DecidableEq

/-- Entry block of one caller (lines 251-255 up to the await): serve a
fresh slot immediately, otherwise issue the scrape fetch and suspend. -/
def startStep (now : ℤ) (c : RateCache) (t : TaskSt) : RateCache × TaskSt :=
  if freshGuard c now then
    (c, { t with pc := TaskPc.done (c.per_usd, c.pub_time, c.raw_100) })
  else
    (c, { t with pc := TaskPc.inB, bCount := t.bCount + 1 })

/-- Completion block of one caller (lines 255-263 from the await on): the
scrape response arrives; on `None` the synchronous `bocfx` fallback runs
within the same block; any non-`None` result is stored with the current
timestamp. -/
def resolveStep (now : ℤ) (bResp aResp : RateTriple) (c : RateCache) (t : TaskSt) :
    RateCache × TaskSt :=
  if bResp.1.isSome then
    (storeCache now bResp, { t with pc := TaskPc.done bResp })
  else if aResp.1.isSome then
    (storeCache now aResp, { t with pc := TaskPc.done aResp, aCount := t.aCount + 1 })
  else
    (c, { t with pc := TaskPc.done aResp, aCount := t.aCount + 1 })

/-- The scheduler: at any point either task may run its next atomic
block. -/
inductive Step (now : ℤ) (bResp aResp : RateTriple) : Sys → Sys → Prop where
  | start1 (s : Sys) (c : RateCache) (t : TaskSt) :
      s.t1.pc = TaskPc.ready → startStep now s.cache s.t1 = (c, t) →
      Step now bResp aResp s ⟨c, t, s.t2⟩
  | start2 (s : Sys) (c : RateCache) (t : TaskSt) :
      s.t2.pc = TaskPc.ready → startStep now s.cache s.t2 = (c, t) →
      Step now bResp aResp s ⟨c, s.t1, t⟩
  | finish1 (s : Sys) (c : RateCache) (t : TaskSt) :
      s.t1.pc = TaskPc.inB → resolveStep now bResp aResp s.cache s.t1 = (c, t) →
      Step now bResp aResp s ⟨c, t, s.t2⟩
  | finish2 (s : Sys) (c : RateCache) (t : TaskSt) :
      s.t2.pc = TaskPc.inB → resolveStep now bResp aResp s.cache s.t2 = (c, t) →
      Step now bResp aResp s ⟨c, s.t1, t⟩

/-- Both callers yet to enter, over an initial cache. -/
def sysInit (c0 : RateCache) : Sys :=
  ⟨c0, ⟨TaskPc.ready, 0, 0⟩, ⟨TaskPc.ready, 0, 0⟩⟩

/-- The empty cache the process boots with (main.py line 43). -/
def emptyCache : RateCache :=
  ⟨none, none, none, none⟩

/-- Number of scrape fetches currently in flight. -/
def inflightB (s : Sys) : ℕ :=
  (if s.t1.pc = TaskPc.inB then 1 else 0) + (if s.t2.pc = TaskPc.inB then 1 else 0)

/-! ## Helper lemmas -/

/-- A member that the predicate rejects survives `dropWhile`. -/
theorem mem_dropWhile_of_mem {p : Char → Bool} :
    ∀ {l : List Char} {a : Char}, a ∈ l → p a = false → a ∈ l.dropWhile p := by
  intro l
  induction l with
  | nil => intro a h _; cases h
  | cons x xs ih =>
    intro a h hp
    rw [List.dropWhile_cons]
    by_cases hx : p x = true
    · rw [if_pos hx]
      rcases List.mem_cons.mp h with h1 | h1
      · subst h1; rw [hp] at hx; cases hx
      · exact ih h1 hp
    · rw [if_neg hx]
      exact h

/-- A non-whitespace member survives Python `strip`. -/
theorem mem_pyStrip_of_mem {l : List Char} {a : Char}
    (h : a ∈ l) (hw : isWsChar a = false) : a ∈ pyStrip l := by
  unfold pyStrip
  rw [List.mem_reverse]
  apply mem_dropWhile_of_mem _ hw
  rw [List.mem_reverse]
  exact mem_dropWhile_of_mem h hw

/-- Every character of a successfully parsed unsigned literal is a digit
or the decimal point. -/
theorem parseUnsigned_chars {cs : List Char} {v : ℚ}
    (h : parseUnsigned cs = some v) :
    ∀ c ∈ cs, isDig c = true ∨ c = '.' := by
  intro c hc
  simp only [parseUnsigned] at h
  have h2 := List.takeWhile_append_dropWhile isDig cs
  rcases hsplit : cs.dropWhile isDig with _ | ⟨d, fp⟩
  · rw [hsplit, List.append_nil] at h2
    rw [← h2] at hc
    exact Or.inl (List.mem_takeWhile_imp hc)
  · rw [hsplit] at h h2
    simp only [] at h
    by_cases hd : d = '.'
    · rw [if_pos hd] at h
      by_cases hall : (fp.all isDig && !((cs.takeWhile isDig).isEmpty && fp.isEmpty)) = true
      · rw [← h2] at hc
        rcases List.mem_append.mp hc with h3 | h3
        · exact Or.inl (List.mem_takeWhile_imp h3)
        · rcases List.mem_cons.mp h3 with h4 | h4
          · exact Or.inr (h4.trans hd)
          · have hall2 := hall
            simp only [Bool.and_eq_true] at hall2
            exact Or.inl (List.all_eq_true.mp hall2.1 c h4)
      · rw [if_neg hall] at h; cases h
    · rw [if_neg hd] at h; cases h

/-- Every character of a successfully parsed signed literal is a digit,
the decimal point, or a sign. -/
theorem parseNumLitL_chars {cs : List Char} {v : ℚ}
    (h : parseNumLitL cs = some v) :
    ∀ c ∈ cs, isDig c = true ∨ c = '.' ∨ c = '+' ∨ c = '-' := by
  intro c hc
  rcases cs with _ | ⟨d, rest⟩
  · cases hc
  · simp only [parseNumLitL] at h
    by_cases hneg : d = '-'
    · rw [if_pos hneg] at h
      rcases List.mem_cons.mp hc with h1 | h1
      · exact Or.inr (Or.inr (Or.inr (h1.trans hneg)))
      · rcases Option.map_eq_some'.mp h with ⟨w, hw, _⟩
        rcases parseUnsigned_chars hw c h1 with h2 | h2
        · exact Or.inl h2
        · exact Or.inr (Or.inl h2)
    · rw [if_neg hneg] at h
      by_cases hpos : d = '+'
      · rw [if_pos hpos] at h
        rcases List.mem_cons.mp hc with h1 | h1
        · exact Or.inr (Or.inr (Or.inl (h1.trans hpos)))
        · rcases parseUnsigned_chars h c h1 with h2 | h2
          · exact Or.inl h2
          · exact Or.inr (Or.inl h2)
      · rw [if_neg hpos] at h
        rcases parseUnsigned_chars h c hc with h2 | h2
        · exact Or.inl h2
        · exact Or.inr (Or.inl h2)

/-- Every character of a string accepted by the pure-number pattern is a
digit or the decimal point. -/
theorem isPureNum_chars {cs : List Char}
    (h : isPureNum cs = true) :
    ∀ c ∈ cs, isDig c = true ∨ c = '.' := by
  intro c hc
  simp only [isPureNum, Bool.and_eq_true] at h
  have h2 := List.takeWhile_append_dropWhile isDig cs
  rcases hsplit : cs.dropWhile isDig with _ | ⟨d, fp⟩
  · rw [hsplit, List.append_nil] at h2
    rw [← h2] at hc
    exact Or.inl (List.mem_takeWhile_imp hc)
  · rw [hsplit] at h h2
    obtain ⟨-, hrest⟩ := h
    simp only [Bool.and_eq_true, decide_eq_true_eq] at hrest
    obtain ⟨⟨hd, -⟩, hall⟩ := hrest
    rw [← h2] at hc
    rcases List.mem_append.mp hc with h3 | h3
    · exact Or.inl (List.mem_takeWhile_imp h3)
    · rcases List.mem_cons.mp h3 with h4 | h4
      · exact Or.inr (h4.trans hd)
      · exact Or.inl (List.all_eq_true.mp hall c h4)

/-- The five magnitude glyphs, spelt out. -/
theorem isUnit_elim {u : Char} (h : isUnit u = true) :
    u = '亿' ∨ u = '万' ∨ u = '千' ∨ u = '百' ∨ u = '十' := by
  simp only [isUnit, Bool.or_eq_true, decide_eq_true_eq] at h
  tauto

/-- Any quote the row scan produces has per-unit rate equal to the raw
hundred-unit rate divided by one hundred. -/
theorem scanRows_ratio (colAsk : ℕ) (colTime : Option ℕ) :
    ∀ (rows : List (List String)) (p : ℚ) (pt : Option String) (r : ℚ),
      scanRows colAsk colTime rows = some (p, pt, r) → p = r / 100 := by
  intro rows
  induction rows with
  | nil => intro p pt r h; simp [scanRows] at h
  | cons tds rest ih =>
    intro p pt r h
    simp only [scanRows] at h
    by_cases hempty : tds.isEmpty = true
    · rw [if_pos hempty] at h
      exact ih p pt r h
    · rw [if_neg hempty] at h
      by_cases hname : (tds.headD "" ≠ "" &&
          (strContains (tds.headD "") "美元" || strContains (strUpper (tds.headD "")) "USD")) = true
      · rw [if_pos hname] at h
        rcases hcn : clean_number (if colAsk < tds.length then tds.getD colAsk "" else "") with _ | askRaw
        · rw [hcn] at h
          exact ih p pt r h
        · rw [hcn] at h
          simp only [Option.some.injEq, Prod.mk.injEq] at h
          obtain ⟨hp, -, hr⟩ := h
          rw [← hp, ← hr]
      · rw [if_neg hname] at h
        exact ih p pt r h

/-- Any quote the table scan produces has per-unit rate equal to the raw
rate divided by one hundred. -/
theorem scanTables_ratio :
    ∀ (tables : List (List (List String))) (p : ℚ) (pt : Option String) (r : ℚ),
      scanTables tables = some (p, pt, r) → p = r / 100 := by
  intro tables
  induction tables with
  | nil => intro p pt r h; simp [scanTables] at h
  | cons table rest ih =>
    intro p pt r h
    simp only [scanTables] at h
    rcases table with _ | ⟨headerRow, bodyRows⟩
    · exact ih p pt r h
    · simp only [] at h
      by_cases hempty : headerRow.isEmpty = true
      · rw [if_pos hempty] at h
        exact ih p pt r h
      · rw [if_neg hempty] at h
        rcases hca : headerRow.findIdx? (fun name => strContains name "现汇卖出") with _ | ca
        · rw [hca] at h
          exact ih p pt r h
        · rw [hca] at h
          simp only [] at h
          rcases hsr : scanRows ca (headerRow.findIdx? fun name =>
              strContains name "发布时间" || strContains name "发布日期" || strContains name "Pub")
              bodyRows with _ | res
          · rw [hsr] at h
            exact ih p pt r h
          · rw [hsr] at h
            simp only [Option.some.injEq] at h
            rw [h] at hsr
            exact scanRows_ratio ca _ bodyRows p pt r hsr

/-! ## Claims -/

/-- C1, counterexample: with a stale slot holding a previously cached
quote (per-unit rate 7) and both rate sources failing, the cache getter
returns the all-absent triple, not the cached quote — refuting the claim
that the call returns the previously cached RateQuote rather than
absent. -/
theorem c1_counterexample :
    (get_usd_per_usd_with_cache ⟨some 7, some "t", some 0, some 700⟩ 500 rnone rnone).2
        = rnone ∧
    (⟨some 7, some "t", some 0, some 700⟩ : RateCache).per_usd = some 7 ∧
    freshGuard ⟨some 7, some "t", some 0, some 700⟩ 500 = false := by
  have hg : freshGuard ⟨some 7, some "t", some 0, some 700⟩ 500 = false := by
    simp [freshGuard, truthy, RATE_TTL]
  refine ⟨?_, rfl, hg⟩
  rw [get_usd_per_usd_with_cache, hg]
  rfl

/-- C1 (amended): when the slot is stale (or empty) and the refresh
fails — both rate sources return absent — the cache getter returns the
all-absent triple, and the cached slot is left exactly as it was: failure
never evicts the stored quote, it only fails to serve one. -/
theorem c1_failed_refresh_keeps_slot (c : RateCache) (now : ℤ)
    (h : freshGuard c now = false) :
    get_usd_per_usd_with_cache c now rnone rnone = (c, rnone) := by
  rw [get_usd_per_usd_with_cache, h]
  rfl

/-- Witness for C1 at a concrete stale slot. -/
theorem c1_witness :
    get_usd_per_usd_with_cache ⟨some 7, some "w", some 100, some 700⟩ 400 rnone rnone
      = (⟨some 7, some "w", some 100, some 700⟩, rnone) :=
  c1_failed_refresh_keeps_slot ⟨some 7, some "w", some 100, some 700⟩ 400
    (by simp [freshGuard, truthy, RATE_TTL])

/-- C3: on the cache-miss path the aggregation calls the scrape source B
first; the bocfx source A is invoked exactly when B came back absent;
when B yields a quote the result is B's and A is never called; when both
are absent the aggregate is absent; no source is called twice; and the
cache getter returns exactly the aggregate on every miss. -/
theorem c3_aggregator_order (b a : RateTriple) (c : RateCache) (now : ℤ) :
    (aggregateTrace b a).2.head? = some Src.B ∧
    (aggregateTrace b a).2.Nodup ∧
    (Src.A ∈ (aggregateTrace b a).2 ↔ b.1 = none) ∧
    (∀ q : ℚ, b.1 = some q → (aggregateTrace b a).1 = b ∧ Src.A ∉ (aggregateTrace b a).2) ∧
    (b.1 = none → (aggregateTrace b a).1 = a) ∧
    (b.1 = none → a.1 = none → (aggregateTrace b a).1.1 = none) ∧
    (freshGuard c now = false →
      (get_usd_per_usd_with_cache c now b a).2 = (aggregateTrace b a).1) := by
  have hlast : freshGuard c now = false →
      (get_usd_per_usd_with_cache c now b a).2 = (aggregateTrace b a).1 := by
    intro h
    rw [get_usd_per_usd_with_cache, h, if_neg Bool.false_ne_true]
    simp only []
    split <;> rfl
  obtain ⟨bp, bt, br⟩ := b
  cases bp with
  | none =>
    refine ⟨by simp [aggregateTrace], by simp [aggregateTrace], ?_, ?_, ?_, ?_, hlast⟩
    · simp [aggregateTrace]
    · intro q hq; cases hq
    · intro h; simp [aggregateTrace]
    · intro h ha; simp [aggregateTrace, ha]
  | some q0 =>
    refine ⟨by simp [aggregateTrace], by simp [aggregateTrace], ?_, ?_, ?_, ?_, hlast⟩
    · simp [aggregateTrace]
    · intro q hq; simp [aggregateTrace]
    · intro h; cases h
    · intro h; cases h

/-- Witness for C3: a successful scrape keeps A uncalled; a double
failure yields absent. -/
theorem c3_witness :
    ((aggregateTrace (some 7, none, some 700) rnone).1 = (some 7, none, some 700) ∧
      Src.A ∉ (aggregateTrace (some 7, none, some 700) rnone).2) ∧
    (aggregateTrace rnone rnone).1.1 = none ∧
    (get_usd_per_usd_with_cache emptyCache 0 rnone rnone).2 = (aggregateTrace rnone rnone).1 := by
  refine ⟨?_, ?_, ?_⟩
  · exact (c3_aggregator_order (some 7, none, some 700) rnone emptyCache 0).2.2.2.1 7 rfl
  · exact (c3_aggregator_order rnone rnone emptyCache 0).2.2.2.2.2.1 rfl rfl
  · exact (c3_aggregator_order rnone rnone emptyCache 0).2.2.2.2.2.2 rfl

/-- C4, counterexample: the bocfx source checks only finiteness, not
positivity — an upstream response carrying the number -3 is accepted and
produces a quote whose rates are negative, refuting the claim that every
produced RateQuote has strictly positive rates derived from a finite
positive number. -/
theorem c4_counterexample :
    fetch_bocfx_usd_se_ask (some (Val.num (-3))) none none
      = (some ((-3 : ℚ) / 100), none, some (-3)) ∧
    ¬(0 < ((-3 : ℚ) / 100)) := by
  refine ⟨rfl, by norm_num⟩

/-- C4 (amended): every quote either source produces satisfies the ratio
invariant perUnitRate = raw100Rate / 100 (with bocfx publishing no
timestamp); positivity is not checked by either source; and the bocfx
source returns absent exactly when none of its three attempts yields a
number. -/
theorem c4_ratio_invariant :
    (∀ (r1 r2 r3 : Option Val) (p : ℚ) (pt : Option String) (r : ℚ),
      fetch_bocfx_usd_se_ask r1 r2 r3 = (some p, pt, some r) → p = r / 100 ∧ pt = none) ∧
    (∀ (tables : List (List (List String))) (p : ℚ) (pt : Option String) (r : ℚ),
      fetch_boc_official_usd_se_ask tables = (some p, pt, some r) → p = r / 100) ∧
    (∀ (r1 r2 r3 : Option Val),
      tryAttempt r1 = none → tryAttempt r2 = none → tryAttempt r3 = none →
      fetch_bocfx_usd_se_ask r1 r2 r3 = rnone) := by
  refine ⟨?_, ?_, ?_⟩
  · intro r1 r2 r3 p pt r h
    rw [fetch_bocfx_usd_se_ask] at h
    rcases h1 : tryAttempt r1 with _ | v1
    · rw [h1] at h
      rcases h2 : tryAttempt r2 with _ | v2
      · rw [h2] at h
        rcases h3 : tryAttempt r3 with _ | v3
        · rw [h3] at h; simp [rnone] at h
        · rw [h3] at h
          simp only [Prod.mk.injEq, Option.some.injEq] at h
          obtain ⟨hp, hpt, hr⟩ := h
          exact ⟨by rw [← hp, ← hr], hpt.symm⟩
      · rw [h2] at h
        simp only [Prod.mk.injEq, Option.some.injEq] at h
        obtain ⟨hp, hpt, hr⟩ := h
        exact ⟨by rw [← hp, ← hr], hpt.symm⟩
    · rw [h1] at h
      simp only [Prod.mk.injEq, Option.some.injEq] at h
      obtain ⟨hp, hpt, hr⟩ := h
      exact ⟨by rw [← hp, ← hr], hpt.symm⟩
  · intro tables p pt r h
    rw [fetch_boc_official_usd_se_ask] at h
    rcases hs : scanTables tables with _ | res
    · rw [hs] at h; simp [rnone] at h
    · rw [hs] at h
      obtain ⟨q, qt, qr⟩ := res
      simp only [Prod.mk.injEq, Option.some.injEq] at h
      obtain ⟨hp, hpt, hr⟩ := h
      rw [← hp, ← hr]
      exact scanTables_ratio tables q qt qr hs
  · intro r1 r2 r3 h1 h2 h3
    rw [fetch_bocfx_usd_se_ask, h1, h2, h3]

/-- Witness for C4: a successful attempt satisfies the ratio invariant;
three failed attempts yield the absent triple. -/
theorem c4_witness :
    ((7 : ℚ) / 100 = 7 / 100 ∧ (none : Option String) = none) ∧
    fetch_bocfx_usd_se_ask none none none = rnone := by
  refine ⟨?_, ?_⟩
  · exact c4_ratio_invariant.1 (some (Val.num 7)) none none (7 / 100) none 7 rfl
  · exact c4_ratio_invariant.2.2 none none none rfl rfl rfl

/-- C6, code-bug evidence: the magnitude-worded token `0.000004十` has
the positive value 0.00004, passes the positivity guard, and is then
rounded half-up at four fractional digits to exactly 0 — so the parser
returns 0, although the guard on the line above (`total <= 0` yields
`None`) shows values outside `(0, 1e9]` are meant to be rejected. -/
theorem c6_zero_returned :
    parse_amount_any "0.000004十" = some 0 := by
  have h1 : parse_amount_to_decimal "0.000004十" = none := rfl
  have h2 : segsValue (scanSegs ("0.000004十".toList.filter isAllowedChar))
      = some ((((0 : ℕ) : ℚ) + ((4 : ℕ) : ℚ) / (10 : ℚ) ^ 6) * 10 + 0) := rfl
  rw [parse_amount_any, h1, parse_amount_chinese]
  rw [if_neg (by decide), if_neg (by decide), if_neg (by decide)]
  simp only [h2]
  rw [if_neg (by decide), if_neg (by norm_num)]
  norm_num [quantize4, rhu]

/-- C9, counterexample: at amountUSD 500000, perUnitRate 7.1234 and
feePercent 2.3 the computed effective rate is 7.2872 — quantized and
formatted at four fractional digits, not six — refuting the claimed
effectiveRate of 7.287238 rounded at six fractional digits. -/
theorem c9_counterexample :
    (convNumbers 500000 ((71234 : ℚ) / 10000) ((23 : ℚ) / 10)).total_rate
        ≠ (7287238 : ℚ) / 1000000 ∧
    fmt_money ((convNumbers 500000 ((71234 : ℚ) / 10000) ((23 : ℚ) / 10)).total_rate)
        ≠ "7.287238" := by
  have h : (convNumbers 500000 ((71234 : ℚ) / 10000) ((23 : ℚ) / 10)).total_rate
      = (72872 : ℚ) / 10000 := by
    simp only [convNumbers]
    norm_num [quantize4, rhu]
  rw [h]
  constructor
  · norm_num
  · have hr : rhu ((72872 : ℚ) / 10000 * 10000) = 72872 := by norm_num [rhu]
    rw [fmt_money, hr]
    decide

/-- C9 (amended): at amountUSD 500000, perUnitRate 7.1234 and feePercent
2.3 the conversion computes feeExclusiveCNY 3561700, feeCNY 81919.1,
totalCNY 3643619.1 and effectiveRate 7.2872, every output field rounded
half-up and formatted at the same fixed count of four fractional
digits. -/
theorem c9_conversion_scenario :
    (convNumbers 500000 ((71234 : ℚ) / 10000) ((23 : ℚ) / 10)).cny_no_fee = 3561700 ∧
    (convNumbers 500000 ((71234 : ℚ) / 10000) ((23 : ℚ) / 10)).fee_cny = (819191 : ℚ) / 10 ∧
    (convNumbers 500000 ((71234 : ℚ) / 10000) ((23 : ℚ) / 10)).total_cny = (36436191 : ℚ) / 10 ∧
    (convNumbers 500000 ((71234 : ℚ) / 10000) ((23 : ℚ) / 10)).total_rate = (72872 : ℚ) / 10000 ∧
    fmt_money ((convNumbers 500000 ((71234 : ℚ) / 10000) ((23 : ℚ) / 10)).cny_no_fee)
        = "3,561,700.0000" ∧
    fmt_money ((convNumbers 500000 ((71234 : ℚ) / 10000) ((23 : ℚ) / 10)).fee_cny)
        = "81,919.1000" ∧
    fmt_money ((convNumbers 500000 ((71234 : ℚ) / 10000) ((23 : ℚ) / 10)).total_cny)
        = "3,643,619.1000" ∧
    fmt_money ((convNumbers 500000 ((71234 : ℚ) / 10000) ((23 : ℚ) / 10)).total_rate)
        = "7.2872" := by
  have h1 : (convNumbers 500000 ((71234 : ℚ) / 10000) ((23 : ℚ) / 10)).cny_no_fee
      = 3561700 := by
    simp only [convNumbers]; norm_num [quantize4, rhu]
  have h2 : (convNumbers 500000 ((71234 : ℚ) / 10000) ((23 : ℚ) / 10)).fee_cny
      = (819191 : ℚ) / 10 := by
    simp only [convNumbers]; norm_num [quantize4, rhu]
  have h3 : (convNumbers 500000 ((71234 : ℚ) / 10000) ((23 : ℚ) / 10)).total_cny
      = (36436191 : ℚ) / 10 := by
    simp only [convNumbers]; norm_num [quantize4, rhu]
  have h4 : (convNumbers 500000 ((71234 : ℚ) / 10000) ((23 : ℚ) / 10)).total_rate
      = (72872 : ℚ) / 10000 := by
    simp only [convNumbers]; norm_num [quantize4, rhu]
  refine ⟨h1, h2, h3, h4, ?_, ?_, ?_, ?_⟩
  · rw [h1]
    have hr : rhu ((3561700 : ℚ) * 10000) = 35617000000 := by norm_num [rhu]
    rw [fmt_money, hr]
    rfl
  · rw [h2]
    have hr : rhu ((819191 : ℚ) / 10 * 10000) = 819191000 := by norm_num [rhu]
    rw [fmt_money, hr]
    rfl
  · rw [h3]
    have hr : rhu ((36436191 : ℚ) / 10 * 10000) = 36436191000 := by norm_num [rhu]
    rw [fmt_money, hr]
    rfl
  · rw [h4]
    have hr : rhu ((72872 : ℚ) / 10000 * 10000) = 72872 := by norm_num [rhu]
    rw [fmt_money, hr]
    rfl

/-- C5, counterexample: the magnitude-worded token `1.123456十` matches
the documented grammar and its left-to-right segment sum is 11.23456, but
the parser returns 11.2346 — the sum rounded half-up at four fractional
digits — so the parser does not return the segment sum itself. -/
theorem c5_counterexample :
    parse_amount_any "1.123456十" = some ((112346 : ℚ) / 10000) ∧
    segsValue (scanSegs "1.123456十".toList) = some ((1123456 : ℚ) / 100000) ∧
    (112346 : ℚ) / 10000 ≠ (1123456 : ℚ) / 100000 := by
  refine ⟨?_, ?_, by norm_num⟩
  · have h1 : parse_amount_to_decimal "1.123456十" = none := rfl
    have h2 : segsValue (scanSegs ("1.123456十".toList.filter isAllowedChar))
        = some ((((1 : ℕ) : ℚ) + ((123456 : ℕ) : ℚ) / (10 : ℚ) ^ 6) * 10 + 0) := rfl
    rw [parse_amount_any, h1, parse_amount_chinese]
    rw [if_neg (by decide), if_neg (by decide), if_neg (by decide)]
    simp only [h2]
    rw [if_neg (by decide), if_neg (by norm_num)]
    norm_num [quantize4, rhu]
  · have h : segsValue (scanSegs "1.123456十".toList)
        = some ((((1 : ℕ) : ℚ) + ((123456 : ℕ) : ℚ) / (10 : ℚ) ^ 6) * 10 + 0) := rfl
    rw [h]
    norm_num

/-- C5 (amended): the three documented examples parse to exactly 500000,
12350 and 35000; every plain decimal-literal token whose value lies in
`(0, 1e9]` parses to its exact literal value with no rounding; and every
magnitude-worded token (digits, optional decimal point and magnitude
glyphs, at least one glyph, no separators) whose segment sum lies in
`(0, 1e9]` parses to that left-to-right sum rounded half-up at four
fractional digits. -/
theorem c5_amount_parsing :
    (parse_amount_any "50万" = some 500000 ∧
     parse_amount_any "1万2千3百50" = some 12350 ∧
     parse_amount_any "3.5万" = some 35000) ∧
    (∀ (t : String) (v : ℚ),
      parseNumLitL (pyStrip ((t.toList).filter (fun c => c ≠ ','))) = some v →
      0 < v → v ≤ 1000000000 →
      parse_amount_any t = some v) ∧
    (∀ (t : String) (total : ℚ),
      t ≠ "" →
      (∀ c ∈ t.toList, isDig c = true ∨ c = '.' ∨ isUnit c = true) →
      (∃ u ∈ t.toList, isUnit u = true) →
      segsValue (scanSegs t.toList) = some total →
      0 < total → total ≤ 1000000000 →
      parse_amount_any t = some (quantize4 total)) := by
  refine ⟨⟨?_, ?_, ?_⟩, ?_, ?_⟩
  · have h1 : parse_amount_to_decimal "50万" = none := rfl
    have h2 : segsValue (scanSegs ("50万".toList.filter isAllowedChar))
        = some (((50 : ℕ) : ℚ) * 10000 + 0) := rfl
    rw [parse_amount_any, h1, parse_amount_chinese]
    rw [if_neg (by decide), if_neg (by decide), if_neg (by decide)]
    simp only [h2]
    rw [if_neg (by decide), if_neg (by norm_num)]
    norm_num [quantize4, rhu]
  · have h1 : parse_amount_to_decimal "1万2千3百50" = none := rfl
    have h2 : segsValue (scanSegs ("1万2千3百50".toList.filter isAllowedChar))
        = some (((1 : ℕ) : ℚ) * 10000 +
            (((2 : ℕ) : ℚ) * 1000 + (((3 : ℕ) : ℚ) * 100 + (((50 : ℕ) : ℚ) * 1 + 0)))) := rfl
    rw [parse_amount_any, h1, parse_amount_chinese]
    rw [if_neg (by decide), if_neg (by decide), if_neg (by decide)]
    simp only [h2]
    rw [if_neg (by decide), if_neg (by norm_num)]
    norm_num [quantize4, rhu]
  · have h1 : parse_amount_to_decimal "3.5万" = none := rfl
    have h2 : segsValue (scanSegs ("3.5万".toList.filter isAllowedChar))
        = some ((((3 : ℕ) : ℚ) + ((5 : ℕ) : ℚ) / (10 : ℚ) ^ 1) * 10000 + 0) := rfl
    rw [parse_amount_any, h1, parse_amount_chinese]
    rw [if_neg (by decide), if_neg (by decide), if_neg (by decide)]
    simp only [h2]
    rw [if_neg (by decide), if_neg (by norm_num)]
    norm_num [quantize4, rhu]
  · intro t v hp h0 h1
    have hd : parse_amount_to_decimal t = some v := by
      simp only [parse_amount_to_decimal]
      have hne : (pyStrip ((t.toList).filter (fun c => c ≠ ','))).isEmpty = false := by
        rcases hl : pyStrip ((t.toList).filter (fun c => c ≠ ',')) with _ | ⟨c, cs⟩
        · rw [hl] at hp
          simp [show parseNumLitL ([] : List Char) = none from rfl] at hp
        · rfl
      rw [if_neg (by rw [hne]; exact Bool.false_ne_true)]
      simp only [hp]
      rw [if_neg (not_le.mpr h0), if_neg (not_lt.mpr h1)]
    rw [parse_amount_any, hd]
  · intro t total h0 hchars hunit hval hpos hbound
    obtain ⟨u, humem, huu⟩ := hunit
    have hniL : t.toList ≠ [] := List.ne_nil_of_mem humem
    have hucases := isUnit_elim huu
    have hu_not_num : ¬(isDig u = true ∨ u = '.' ∨ u = '+' ∨ u = '-') := by
      rcases hucases with h | h | h | h | h <;> subst h <;> decide
    have hu_not_dd : ¬(isDig u = true ∨ u = '.') := by
      intro h; exact hu_not_num (h.elim Or.inl (fun h2 => Or.inr (Or.inl h2)))
    have hu_not_comma : u ≠ ',' := by
      rcases hucases with h | h | h | h | h <;> subst h <;> decide
    have hu_not_ws : isWsChar u = false := by
      rcases hucases with h | h | h | h | h <;> subst h <;> decide
    have hdec : parse_amount_to_decimal t = none := by
      simp only [parse_amount_to_decimal]
      have humem2 : u ∈ pyStrip ((t.toList).filter (fun c => c ≠ ',')) := by
        apply mem_pyStrip_of_mem _ hu_not_ws
        exact List.mem_filter.mpr ⟨humem, by simp [hu_not_comma]⟩
      rcases hl : parseNumLitL (pyStrip ((t.toList).filter (fun c => c ≠ ','))) with _ | w
      · split <;> rfl
      · exfalso
        rcases parseNumLitL_chars hl u humem2 with h | h | h | h
        · exact hu_not_num (Or.inl h)
        · exact hu_not_num (Or.inr (Or.inl h))
        · exact hu_not_num (Or.inr (Or.inr (Or.inl h)))
        · exact hu_not_num (Or.inr (Or.inr (Or.inr h)))
    have hclean : (t.toList).filter isAllowedChar = t.toList := by
      rw [List.filter_eq_self]
      intro c hc
      rcases hchars c hc with h | h | h
      · simp [isAllowedChar, h]
      · subst h; decide
      · rcases isUnit_elim h with h2 | h2 | h2 | h2 | h2 <;> subst h2 <;> decide
    have hpure : (t.toList).filter (fun c => c ≠ ',') = t.toList := by
      rw [List.filter_eq_self]
      intro c hc
      rcases hchars c hc with h | h | h
      · simp only [decide_eq_true_eq]
        intro he
        subst he
        exact absurd h (by decide)
      · subst h; decide
      · simp only [decide_eq_true_eq]
        intro he
        subst he
        exact absurd h (by decide)
    rw [parse_amount_any, hdec, parse_amount_chinese]
    rw [if_neg h0]
    rw [hclean]
    have hnE : (t.toList).isEmpty = false := by
      cases hl : t.toList with
      | nil => exact absurd hl hniL
      | cons c cs => rfl
    rw [if_neg (by rw [hnE]; exact Bool.false_ne_true)]
    rw [hpure]
    have hnotpure : ¬(isPureNum t.toList = true) := by
      intro hpn
      exact hu_not_dd (isPureNum_chars hpn u humem)
    rw [if_neg hnotpure]
    have hPartsNE : (scanSegs t.toList).isEmpty = false := by
      cases hsc : scanSegs t.toList with
      | nil =>
        rw [hsc] at hval
        simp only [segsValue, Option.some.injEq] at hval
        rw [← hval] at hpos
        exact absurd hpos (by norm_num)
      | cons s ss => rfl
    rw [if_neg (by rw [hPartsNE]; exact Bool.false_ne_true)]
    simp only [hval]
    rw [if_neg ?bounds]
    case bounds =>
      intro hcon
      rcases hcon with hc | hc
      · exact absurd hc (not_le.mpr hpos)
      · exact absurd hc (not_lt.mpr hbound)

/-- Witness for C5: a plain decimal token and a magnitude token, pushed
through the two general clauses. -/
theorem c5_witness :
    parse_amount_any "2500" = some 2500 ∧
    parse_amount_any "50万" = some (quantize4 500000) := by
  constructor
  · have ha : parseNumLitL (pyStrip (("2500".toList).filter (fun c => c ≠ ',')))
        = some ((2500 : ℕ) : ℚ) := rfl
    have hb : (some (((2500 : ℕ) : ℚ)) : Option ℚ) = some (2500 : ℚ) := by simp
    exact c5_amount_parsing.2.1 "2500" 2500 (ha.trans hb) (by norm_num) (by norm_num)
  · have ha : segsValue (scanSegs "50万".toList)
        = some (((50 : ℕ) : ℚ) * 10000 + 0) := rfl
    have hb : (some ((((50 : ℕ) : ℚ)) * 10000 + 0) : Option ℚ) = some (500000 : ℚ) := by
      simp only [Option.some.injEq]
      norm_num
    exact c5_amount_parsing.2.2 "50万" 500000 (by decide) (by decide)
      ⟨'万', by decide, by decide⟩ (ha.trans hb) (by norm_num) (by norm_num)

/-- C7, counterexample: with a fresh pending entry, the cancel-token
variant `CANCEL` is not recognised — the handler falls through to the
percentage parser, re-prompts, and keeps the pending entry — refuting
the claim that the cancel token is recognised case-insensitively. -/
theorem c7_counterexample :
    (handle_text rnone 10 "CANCEL" ⟨some ⟨1000, 0, none⟩, none⟩).1.pending
        = some ⟨1000, 0, none⟩ ∧
    (handle_text rnone 10 "CANCEL" ⟨some ⟨1000, 0, none⟩, none⟩).2
        = [Msg.repromptPercent] :=
  ⟨rfl, rfl⟩

/-- C7 (amended): with a fresh pending entry, each of the three literal
cancel spellings the code accepts — 取消, cancel and Cancel — deletes the
pending entry, emits exactly the cancellation notice, and produces no
conversion-result message. -/
theorem c7_cancel_token (fetch : RateTriple) (now : ℤ) (text : String)
    (st : ChatState) (state : Pending)
    (hp : st.pending = some state)
    (hfresh : now - state.created_at ≤ PENDING_TTL)
    (hc : pyStrip text.toList = "取消".toList ∨ pyStrip text.toList = "cancel".toList ∨
      pyStrip text.toList = "Cancel".toList) :
    handle_text fetch now text st = ({ st with pending := none }, [Msg.cancelNotice]) ∧
    ∀ m ∈ (handle_text fetch now text st).2, isResultMsg m = false := by
  have halias : ¬(pyStrip text.toList = "汇率".toList ∨ pyStrip text.toList = "/汇率".toList) := by
    rcases hc with h | h | h <;> rw [h] <;> decide
  have hmain : handle_text fetch now text st
      = ({ st with pending := none }, [Msg.cancelNotice]) := by
    simp only [handle_text]
    rw [if_neg halias, hp]
    simp only []
    rw [if_neg (not_lt.mpr hfresh), if_pos hc]
  refine ⟨hmain, ?_⟩
  rw [hmain]
  intro m hm
  simp only [List.mem_singleton] at hm
  subst hm
  rfl

/-- Witness for C7 at the spelling `cancel`. -/
theorem c7_witness :
    handle_text rnone 10 "cancel" ⟨some ⟨1000, 0, none⟩, none⟩
      = (⟨none, none⟩, [Msg.cancelNotice]) :=
  (c7_cancel_token rnone 10 "cancel" ⟨some ⟨1000, 0, none⟩, none⟩ ⟨1000, 0, none⟩
    rfl (by decide) (Or.inr (Or.inl (by decide)))).1

/-- C8, counterexample: with a pending entry 300 seconds old — past the
120-second pending TTL — the text 汇率 takes the rate-alias path: the
handler emits a rate reply (here the unavailability notice), no timeout
notice, and the expired pending entry is left in place — refuting the
claim that any text supplied to an expired entry drops it and emits a
timeout notice. -/
theorem c8_counterexample :
    (handle_text rnone 300 "汇率" ⟨some ⟨1000, 0, none⟩, none⟩).1.pending
        = some ⟨1000, 0, none⟩ ∧
    (handle_text rnone 300 "汇率" ⟨some ⟨1000, 0, none⟩, none⟩).2
        = [Msg.rateUnavailable] ∧
    PENDING_TTL < (300 : ℤ) - 0 :=
  ⟨rfl, rfl, by decide⟩

/-- C8 (amended): when the pending entry is older than the 120-second
pending TTL, any supplied text other than the rate-alias tokens 汇率 and
/汇率 — whatever its content, including a valid fee percentage — drops
the entry and emits exactly the timeout notice. -/
theorem c8_pending_timeout (fetch : RateTriple) (now : ℤ) (text : String)
    (st : ChatState) (state : Pending)
    (hp : st.pending = some state)
    (hstale : PENDING_TTL < now - state.created_at)
    (h1 : pyStrip text.toList ≠ "汇率".toList)
    (h2 : pyStrip text.toList ≠ "/汇率".toList) :
    handle_text fetch now text st = ({ st with pending := none }, [Msg.timeoutNotice]) := by
  simp only [handle_text]
  rw [if_neg (not_or.mpr ⟨h1, h2⟩), hp]
  simp only []
  rw [if_pos hstale]

/-- Witness for C8: a valid fee percentage supplied 300 seconds after the
conversion began yields the timeout notice, not a conversion. -/
theorem c8_witness :
    handle_text rnone 300 "2.5" ⟨some ⟨1000, 0, none⟩, none⟩
      = (⟨none, none⟩, [Msg.timeoutNotice]) :=
  c8_pending_timeout rnone 300 "2.5" ⟨some ⟨1000, 0, none⟩, none⟩ ⟨1000, 0, none⟩
    rfl (by decide) (by decide) (by decide)

/-- C10: supplying a valid fee percentage to a fresh pending entry
consumes the entry and memorises the fee even when the rate lookup then
fails — the conversation receives exactly the unavailability notice, the
entry is not restored, the fee stays remembered, and any subsequent
non-alias text is silently ignored. -/
theorem c10_fee_consumed_on_failure (now : ℤ) (text : String)
    (st : ChatState) (state : Pending) (f : ℚ)
    (hp : st.pending = some state)
    (hfresh : now - state.created_at ≤ PENDING_TTL)
    (hparse : parse_percent_list (pyStrip text.toList) = some f)
    (hny : ¬(pyStrip text.toList = "是".toList ∨ pyStrip text.toList = "Yes".toList ∨
      pyStrip text.toList = "yes".toList ∨ pyStrip text.toList = "Y".toList ∨
      pyStrip text.toList = "y".toList)) :
    handle_text (none, none, none) now text st
        = ({ st with pending := none, last_fee_mem := some f }, [Msg.rateUnavailable]) ∧
    ∀ (fetch2 : RateTriple) (now2 : ℤ) (text2 : String),
      pyStrip text2.toList ≠ "汇率".toList → pyStrip text2.toList ≠ "/汇率".toList →
      handle_text fetch2 now2 text2 { st with pending := none, last_fee_mem := some f }
        = ({ st with pending := none, last_fee_mem := some f }, []) := by
  have halias : ¬(pyStrip text.toList = "汇率".toList ∨ pyStrip text.toList = "/汇率".toList) := by
    rintro (h | h) <;> rw [h] at hparse
    · rw [show parse_percent_list ("汇率".toList) = none from rfl] at hparse
      cases hparse
    · rw [show parse_percent_list ("/汇率".toList) = none from rfl] at hparse
      cases hparse
  have hcancel : ¬(pyStrip text.toList = "取消".toList ∨ pyStrip text.toList = "cancel".toList ∨
      pyStrip text.toList = "Cancel".toList) := by
    rintro (h | h | h) <;> rw [h] at hparse
    · rw [show parse_percent_list ("取消".toList) = none from rfl] at hparse
      cases hparse
    · rw [show parse_percent_list ("cancel".toList) = none from rfl] at hparse
      cases hparse
    · rw [show parse_percent_list ("Cancel".toList) = none from rfl] at hparse
      cases hparse
  constructor
  · simp only [handle_text]
    rw [if_neg halias, hp]
    simp only []
    rw [if_neg (not_lt.mpr hfresh), if_neg hcancel]
    rw [if_neg (fun hcon => hny hcon.1)]
    simp only [hparse]
  · intro fetch2 now2 text2 ha hb
    simp only [handle_text]
    rw [if_neg (not_or.mpr ⟨ha, hb⟩)]

/-- Witness for C10: the fee 2.5 supplied while both sources fail. -/
theorem c10_witness :
    handle_text (none, none, none) 10 "2.5" ⟨some ⟨1000, 0, none⟩, none⟩
        = (⟨none, some ((5 : ℚ) / 2)⟩, [Msg.rateUnavailable]) ∧
    handle_text rnone 999 "hello" ⟨none, some ((5 : ℚ) / 2)⟩
        = (⟨none, some ((5 : ℚ) / 2)⟩, []) := by
  have hparse : parse_percent_list (pyStrip "2.5".toList) = some ((5 : ℚ) / 2) := by
    have h : parseNumLitL (pyStrip ((pyStrip "2.5".toList).filter (fun c => c ≠ '%')))
        = some (((2 : ℕ) : ℚ) + ((5 : ℕ) : ℚ) / (10 : ℚ) ^ 1) := rfl
    rw [parse_percent_list]
    simp only [h]
    rw [if_neg (by norm_num)]
    norm_num
  have hmain := c10_fee_consumed_on_failure 10 "2.5" ⟨some ⟨1000, 0, none⟩, none⟩
    ⟨1000, 0, none⟩ ((5 : ℚ) / 2) rfl (by decide) hparse (by decide)
  exact ⟨hmain.1, hmain.2 rnone 999 "hello" (by decide) (by decide)⟩

/-- The state in which both callers have found the slot stale and have
their scrape fetches in flight simultaneously. -/
def sysBoth : Sys :=
  ⟨emptyCache, ⟨TaskPc.inB, 1, 0⟩, ⟨TaskPc.inB, 1, 0⟩⟩

/-- C2, counterexample: from an empty (hence stale) cache slot, the
scheduler can run both callers' entry blocks back to back — there is no
refresh lock — reaching a state with two scrape fetches in flight at
once, refuting the claim that at most one outbound fetch per upstream is
ever in flight. -/
theorem c2_counterexample :
    Relation.ReflTransGen (Step 0 rnone rnone) (sysInit emptyCache) sysBoth ∧
    inflightB sysBoth = 2 := by
  refine ⟨?_, rfl⟩
  have s1 : Step 0 rnone rnone (sysInit emptyCache)
      ⟨emptyCache, ⟨TaskPc.inB, 1, 0⟩, ⟨TaskPc.ready, 0, 0⟩⟩ :=
    Step.start1 (sysInit emptyCache) emptyCache ⟨TaskPc.inB, 1, 0⟩ rfl rfl
  have s2 : Step 0 rnone rnone ⟨emptyCache, ⟨TaskPc.inB, 1, 0⟩, ⟨TaskPc.ready, 0, 0⟩⟩ sysBoth :=
    Step.start2 ⟨emptyCache, ⟨TaskPc.inB, 1, 0⟩, ⟨TaskPc.ready, 0, 0⟩⟩ emptyCache
      ⟨TaskPc.inB, 1, 0⟩ rfl rfl
  exact Relation.ReflTransGen.head s1 (Relation.ReflTransGen.head s2 Relation.ReflTransGen.refl)

/-- The per-task bookkeeping invariant: fetch counters never exceed one
per upstream, are zero before entry, and the fallback is not yet called
while the scrape is in flight. -/
def taskCountsOk (t : TaskSt) : Prop :=
  t.bCount ≤ 1 ∧ t.aCount ≤ 1 ∧
  (t.pc = TaskPc.ready → t.bCount = 0 ∧ t.aCount = 0) ∧
  (t.pc = TaskPc.inB → t.bCount = 1 ∧ t.aCount = 0)

/-- The entry block preserves the bookkeeping invariant. -/
theorem startStep_counts (now : ℤ) (c : RateCache) (t : TaskSt)
    (h : taskCountsOk t) (hr : t.pc = TaskPc.ready) :
    taskCountsOk (startStep now c t).2 := by
  obtain ⟨-, -, h3, -⟩ := h
  obtain ⟨hb0, ha0⟩ := h3 hr
  unfold startStep taskCountsOk
  split
  · dsimp only
    refine ⟨by omega, by omega, ?_, ?_⟩
    · intro hpc; cases hpc
    · intro hpc; cases hpc
  · dsimp only
    refine ⟨by omega, by omega, ?_, ?_⟩
    · intro hpc; cases hpc
    · intro hpc
      exact ⟨by omega, ha0⟩

/-- The completion block preserves the bookkeeping invariant. -/
theorem resolveStep_counts (now : ℤ) (bResp aResp : RateTriple) (c : RateCache) (t : TaskSt)
    (h : taskCountsOk t) (hr : t.pc = TaskPc.inB) :
    taskCountsOk (resolveStep now bResp aResp c t).2 := by
  obtain ⟨h1, -, -, h4⟩ := h
  obtain ⟨hb1, ha0⟩ := h4 hr
  unfold resolveStep taskCountsOk
  split
  · dsimp only
    refine ⟨h1, by omega, ?_, ?_⟩
    · intro hpc; cases hpc
    · intro hpc; cases hpc
  · split
    · dsimp only
      refine ⟨h1, by omega, ?_, ?_⟩
      · intro hpc; cases hpc
      · intro hpc; cases hpc
    · dsimp only
      refine ⟨h1, by omega, ?_, ?_⟩
      · intro hpc; cases hpc
      · intro hpc; cases hpc

/-- C2 (amended): the refresh path is not serialised — two in-flight
scrape fetches are reachable (see the counterexample) — but within one
call each caller contacts each upstream at most once: along every
schedule from the initial two-caller state, each task issues at most one
fetch to the scrape source and at most one to the bocfx source. -/
theorem c2_no_lock_fetch_bounds (now : ℤ) (bResp aResp : RateTriple) (c0 : RateCache)
    (s : Sys) (h : Relation.ReflTransGen (Step now bResp aResp) (sysInit c0) s) :
    (s.t1.bCount ≤ 1 ∧ s.t1.aCount ≤ 1) ∧ (s.t2.bCount ≤ 1 ∧ s.t2.aCount ≤ 1) := by
  have key : taskCountsOk s.t1 ∧ taskCountsOk s.t2 := by
    induction h with
    | refl =>
      have hok : taskCountsOk ⟨TaskPc.ready, 0, 0⟩ := by
        refine ⟨by decide, by decide, ?_, ?_⟩
        · intro _; exact ⟨rfl, rfl⟩
        · intro hpc; cases hpc
      exact ⟨hok, hok⟩
    | @tail s1 s2 hsteps hstep ih =>
      cases hstep with
      | start1 c t hr heq =>
        refine ⟨?_, ih.2⟩
        have hc := startStep_counts now s1.cache s1.t1 ih.1 hr
        rw [heq] at hc
        exact hc
      | start2 c t hr heq =>
        refine ⟨ih.1, ?_⟩
        have hc := startStep_counts now s1.cache s1.t2 ih.2 hr
        rw [heq] at hc
        exact hc
      | finish1 c t hr heq =>
        refine ⟨?_, ih.2⟩
        have hc := resolveStep_counts now bResp aResp s1.cache s1.t1 ih.1 hr
        rw [heq] at hc
        exact hc
      | finish2 c t hr heq =>
        refine ⟨ih.1, ?_⟩
        have hc := resolveStep_counts now bResp aResp s1.cache s1.t2 ih.2 hr
        rw [heq] at hc
        exact hc
  exact ⟨⟨key.1.1, key.1.2.1⟩, ⟨key.2.1, key.2.2.1⟩⟩

/-- Witness for C2 at the reachable state with both fetches in flight. -/
theorem c2_witness :
    (sysBoth.t1.bCount ≤ 1 ∧ sysBoth.t1.aCount ≤ 1) ∧
    (sysBoth.t2.bCount ≤ 1 ∧ sysBoth.t2.aCount ≤ 1) := by
  have s1 : Step 0 rnone rnone (sysInit emptyCache)
      ⟨emptyCache, ⟨TaskPc.inB, 1, 0⟩, ⟨TaskPc.ready, 0, 0⟩⟩ :=
    Step.start1 (sysInit emptyCache) emptyCache ⟨TaskPc.inB, 1, 0⟩ rfl rfl
  have s2 : Step 0 rnone rnone ⟨emptyCache, ⟨TaskPc.inB, 1, 0⟩, ⟨TaskPc.ready, 0, 0⟩⟩ sysBoth :=
    Step.start2 ⟨emptyCache, ⟨TaskPc.inB, 1, 0⟩, ⟨TaskPc.ready, 0, 0⟩⟩ emptyCache
      ⟨TaskPc.inB, 1, 0⟩ rfl rfl
  exact c2_no_lock_fetch_bounds 0 rnone rnone emptyCache sysBoth
    (Relation.ReflTransGen.head s1 (Relation.ReflTransGen.head s2 Relation.ReflTransGen.refl))
